import Mathlib

/-!
# ShoreSquad: the local data store of `js/app.js`

A shallow embedding of the crew / event store of `js/app.js` (the global `state`
object, `createCrew`, `createEvent`, `joinEvent`, `saveLocalData`,
`loadLocalData`, `renderWeatherCard`) together with the parts of the browser the
handlers talk to: `localStorage`, `JSON.stringify` / `JSON.parse`, the toast
notifications and the clock.

Modelling conventions.
* A JavaScript string is a `List Char` (`Str`); lone surrogate code units are
  not representable.
* Numbers that the store holds (`Date.now()` readings and counters) are natural
  numbers; they are assumed to stay in the range in which a JavaScript number is
  an exact integer printed in plain decimal.
* Reads of the environment are explicit arguments: `now` is the value of
  `Date.now()`, `today` the text of `new Date().toLocaleDateString()`, and the
  form field values are the `Str` arguments of the handlers.
* The comparison `c.id == crewId` of a number with a string in `createEvent` is
  an argument of the model, so what is proved holds for every conversion of the
  string; `looseEqDecimal` is the instance used in the examples.
* `loadLocalData` answers `none` for a stored text that is not JSON or does not
  hold a list of records; the store of this model has no value for it.
* Writes to the page that no handler reads back (`renderCrews`, `renderEvents`,
  `closeModal`, `e.preventDefault()`) are left out; `showNotification` is kept
  as a log of the notices that were raised.
-/

namespace ShoreSquad

/-- A JavaScript string, as the list of its characters. -/
abbrev Str := List Char

/-! ## `String.prototype.trim` -/

/-- The characters `trim` strips: ECMAScript `WhiteSpace` and `LineTerminator`. -/
def isWhiteSpace (c : Char) : Bool :=
  let n := c.toNat
  n == 9 || n == 10 || n == 11 || n == 12 || n == 13 || n == 32 || n == 160 ||
  n == 5760 || (8192 ≤ n && n ≤ 8202) || n == 8232 || n == 8233 || n == 8239 ||
  n == 8287 || n == 12288 || n == 65279

/-- Strip leading white space. -/
def trimStart (s : Str) : Str := s.dropWhile isWhiteSpace

/-- Strip trailing white space. -/
def trimEnd (s : Str) : Str := (s.reverse.dropWhile isWhiteSpace).reverse

/-- The method `s.trim()`. -/
def trim (s : Str) : Str := trimEnd (trimStart s)

/-! ## Data model -/

/-- A crew record, fields in the order of the object literal in `createCrew`. -/
structure Crew where
  id : Nat
  name : Str
  location : Str
  members : List Str
  created : Str
  memberCount : Nat
deriving DecidableEq

/-- An event record, fields in the order of the object literal in `createEvent`. -/
structure Event where
  id : Nat
  title : Str
  date : Str
  crew : Str
  location : Str
  participants : List Str
  participantCount : Nat
  status : Str
deriving DecidableEq

/-- The `type` argument of `showNotification`. -/
inductive Severity where
  | success
  | error
  | warning
  | info
deriving DecidableEq

/-- One call of `showNotification(message, type)`. -/
structure Notification where
  message : Str
  type : Severity
deriving DecidableEq

/-- The browser `localStorage`: the stored key / value pairs. -/
abbrev Storage := List (Str × Str)

/-- The call `localStorage.getItem(key)`; `none` is JavaScript `null`. -/
def getItem (st : Storage) (key : Str) : Option Str :=
  (st.find? (fun p => p.1 == key)).map (fun p => p.2)

/-- The call `localStorage.setItem(key, value)`. -/
def setItem (st : Storage) (key value : Str) : Storage :=
  (key, value) :: st.filter (fun p => !(p.1 == key))

/-- The global `state` object (`state.currentUser.name` is `currentUser`), with the
browser storage and the notices raised so far. -/
structure State where
  crews : List Crew
  events : List Event
  currentUser : Str
  storage : Storage
  notifications : List Notification
deriving DecidableEq

/-- The exception a handler can end with: reading a property of `undefined`. -/
inductive JsError where
  | typeError
deriving DecidableEq

/-- How a handler ends: the store it leaves behind and the exception it raised, if any. -/
structure Outcome where
  state : State
  threw : Option JsError
deriving DecidableEq

/-- The function `showNotification(message, type)`. -/
def showNotification (message : Str) (type : Severity) (s : State) : State :=
  { s with notifications := s.notifications ++ [⟨message, type⟩] }

/-! ## `JSON.stringify` and `JSON.parse`

The texts `saveLocalData` writes are arrays of objects whose fields are
non-negative integers, strings and arrays of strings. `stringify` prints a
value the way `JSON.stringify(value)` does (no indentation). `jsonParse` reads
the JSON grammar with white space between tokens; a number with a sign, a
fraction or an exponent and a `\u` escape of a surrogate are outside the
fragment and are answered with `none`, as is a text that is not JSON. -/

/-- A parsed JSON value; an object keeps its members in text order. -/
inductive JSON where
  | null
  | bool (b : Bool)
  | num (n : Nat)
  | str (s : Str)
  | arr (xs : List JSON)
  | obj (ms : List (Str × JSON))

/-- The decimal digit `d` as a character. -/
def digitChar (d : Nat) : Char := Char.ofNat (48 + d)

/-- The decimal digits of `n`, most significant first (`fuel` bounds the number of digits). -/
def natDigits : Nat → Nat → Str
  | 0, _ => []
  | fuel + 1, n =>
    if n < 10 then [digitChar n] else natDigits fuel (n / 10) ++ [digitChar (n % 10)]

/-- The text of a non-negative integer, `String(n)`. -/
def numberToString (n : Nat) : Str := natDigits (n + 1) n

/-- The lower-case hexadecimal digit `d`. -/
def hexDigit (d : Nat) : Char := if d < 10 then Char.ofNat (48 + d) else Char.ofNat (87 + d)

/-- How `JSON.stringify` writes one character inside a string. -/
def escapeChar (c : Char) : Str :=
  if c = '"' then ['\\', '"']
  else if c = '\\' then ['\\', '\\']
  else if c.toNat = 8 then ['\\', 'b']
  else if c.toNat = 12 then ['\\', 'f']
  else if c.toNat = 10 then ['\\', 'n']
  else if c.toNat = 13 then ['\\', 'r']
  else if c.toNat = 9 then ['\\', 't']
  else if c.toNat < 32 then
    ['\\', 'u', '0', '0', hexDigit (c.toNat / 16), hexDigit (c.toNat % 16)]
  else [c]

/-- A string in double quotes with its characters escaped. -/
def quote (s : Str) : Str := '"' :: (s.flatMap escapeChar ++ ['"'])

/-- The opening brace of an object. -/
def lbrace : Char := Char.ofNat 123

/-- The closing brace of an object. -/
def rbrace : Char := Char.ofNat 125

mutual
/-- The text `JSON.stringify(v)`. -/
def stringify : JSON → Str
  | .null => "null".toList
  | .bool b => if b then "true".toList else "false".toList
  | .num n => numberToString n
  | .str s => quote s
  | .arr xs => '[' :: (stringifyElements xs ++ [']'])
  | .obj ms => lbrace :: (stringifyMembers ms ++ [rbrace])
/-- The elements of an array, separated by commas. -/
def stringifyElements : List JSON → Str
  | [] => []
  | [v] => stringify v
  | v :: w :: ws => stringify v ++ ',' :: stringifyElements (w :: ws)
/-- The members of an object, separated by commas. -/
def stringifyMembers : List (Str × JSON) → Str
  | [] => []
  | [(k, v)] => quote k ++ ':' :: stringify v
  | (k, v) :: m :: ms => quote k ++ ':' :: stringify v ++ ',' :: stringifyMembers (m :: ms)
end

/-- JSON white space: space, tab, line feed, carriage return. -/
def isJsonWs (c : Char) : Bool :=
  c.toNat == 32 || c.toNat == 9 || c.toNat == 10 || c.toNat == 13

/-- Drop leading JSON white space. -/
def skipWs (cs : Str) : Str := cs.dropWhile isJsonWs

/-- A decimal digit. -/
def isDigit (c : Char) : Bool := 48 ≤ c.toNat && c.toNat ≤ 57

/-- The number a run of decimal digits denotes. -/
def digitsValue (ds : Str) : Nat := ds.foldl (fun a c => 10 * a + (c.toNat - 48)) 0

/-- The value of a hexadecimal digit. -/
def hexVal (c : Char) : Option Nat :=
  let n := c.toNat
  if 48 ≤ n ∧ n ≤ 57 then some (n - 48)
  else if 97 ≤ n ∧ n ≤ 102 then some (n - 87)
  else if 65 ≤ n ∧ n ≤ 70 then some (n - 55)
  else none

/-- The character of a four digit `\u` escape; a surrogate has none here. -/
def hex4 (a b c d : Char) : Option Char :=
  match hexVal a, hexVal b, hexVal c, hexVal d with
  | some x, some y, some z, some w =>
    let n := 4096 * x + 256 * y + 16 * z + w
    if 55296 ≤ n ∧ n ≤ 57343 then none else some (Char.ofNat n)
  | _, _, _, _ => none

/-- The character a one letter escape stands for. -/
def unescape (e : Char) : Option Char :=
  if e = '"' then some '"'
  else if e = '\\' then some '\\'
  else if e = '/' then some '/'
  else if e = 'b' then some (Char.ofNat 8)
  else if e = 'f' then some (Char.ofNat 12)
  else if e = 'n' then some (Char.ofNat 10)
  else if e = 'r' then some (Char.ofNat 13)
  else if e = 't' then some (Char.ofNat 9)
  else none

/-- Put one more item in front of a parsed list. -/
def consResult {α : Type} (c : α) (p : List α × Str) : List α × Str := (c :: p.1, p.2)

/-- Read a string after its opening quote: the characters and the text after the
closing quote. -/
def parseStringBody : Str → Option (Str × Str)
  | [] => none
  | c :: cs =>
    if c = '"' then some ([], cs)
    else if c = '\\' then
      match cs with
      | [] => none
      | e :: cs1 =>
        if e = 'u' then
          match cs1 with
          | h1 :: h2 :: h3 :: h4 :: cs2 =>
            match hex4 h1 h2 h3 h4 with
            | some ch => (parseStringBody cs2).map (consResult ch)
            | none => none
          | _ => none
        else
          match unescape e with
          | some ch => (parseStringBody cs1).map (consResult ch)
          | none => none
    else if c.toNat < 32 then none
    else (parseStringBody cs).map (consResult c)

/-- Read a number that starts at the head of the text. -/
def parseNumber (cs : Str) : Option (JSON × Str) :=
  let ds := cs.takeWhile isDigit
  let r := cs.dropWhile isDigit
  if ds = [] then none
  else if ds.head? = some '0' ∧ 1 < ds.length then none
  else if r.head? = some '.' ∨ r.head? = some 'e' ∨ r.head? = some 'E' then none
  else some (JSON.num (digitsValue ds), r)

/-- Read the rest of one of the words `true`, `false`, `null`. -/
def parseLiteral (word : Str) (v : JSON) (cs : Str) : Option (JSON × Str) :=
  if cs.take word.length = word then some (v, cs.drop word.length) else none

mutual
/-- Read one value; `fuel` bounds the nesting and the number of items. -/
def parseValue : Nat → Str → Option (JSON × Str)
  | 0, _ => none
  | fuel + 1, cs =>
    match skipWs cs with
    | [] => none
    | c :: r =>
      if c = '"' then (parseStringBody r).map (fun p => (JSON.str p.1, p.2))
      else if c = '[' then
        match skipWs r with
        | [] => none
        | d :: r1 =>
          if d = ']' then some (JSON.arr [], r1)
          else (parseElements fuel r).map (fun p => (JSON.arr p.1, p.2))
      else if c = lbrace then
        match skipWs r with
        | [] => none
        | d :: r1 =>
          if d = rbrace then some (JSON.obj [], r1)
          else (parseMembers fuel r).map (fun p => (JSON.obj p.1, p.2))
      else if c = 't' then parseLiteral "rue".toList (JSON.bool true) r
      else if c = 'f' then parseLiteral "alse".toList (JSON.bool false) r
      else if c = 'n' then parseLiteral "ull".toList JSON.null r
      else if isDigit c then parseNumber (c :: r)
      else none
/-- Read the elements of a non-empty array up to and including the closing bracket. -/
def parseElements : Nat → Str → Option (List JSON × Str)
  | 0, _ => none
  | fuel + 1, cs =>
    match parseValue fuel cs with
    | none => none
    | some (v, r) =>
      match skipWs r with
      | [] => none
      | d :: r1 =>
        if d = ',' then (parseElements fuel r1).map (consResult v)
        else if d = ']' then some ([v], r1)
        else none
/-- Read the members of a non-empty object up to and including the closing brace. -/
def parseMembers : Nat → Str → Option (List (Str × JSON) × Str)
  | 0, _ => none
  | fuel + 1, cs =>
    match skipWs cs with
    | [] => none
    | q :: r0 =>
      if q = '"' then
        match parseStringBody r0 with
        | none => none
        | some (k, r1) =>
          match skipWs r1 with
          | [] => none
          | col :: r2 =>
            if col = ':' then
              match parseValue fuel r2 with
              | none => none
              | some (v, r3) =>
                match skipWs r3 with
                | [] => none
                | d :: r4 =>
                  if d = ',' then (parseMembers fuel r4).map (consResult (k, v))
                  else if d = rbrace then some ([(k, v)], r4)
                  else none
            else none
      else none
end

/-- The call `JSON.parse(text)`: one value, then only white space. The fuel is the
length of the text plus one, which is enough for every text that `stringify`
writes (`size_le_length`). -/
def jsonParse (text : Str) : Option JSON :=
  match parseValue (text.length + 1) text with
  | some (v, r) => if skipWs r = [] then some v else none
  | none => none

mutual
/-- The fuel `parseValue` needs for the text of a value. -/
def size : JSON → Nat
  | .arr xs => 1 + sizeList xs
  | .obj ms => 1 + sizeMembers ms
  | _ => 1
/-- The fuel `parseElements` needs. -/
def sizeList : List JSON → Nat
  | [] => 0
  | v :: vs => 1 + size v + sizeList vs
/-- The fuel `parseMembers` needs. -/
def sizeMembers : List (Str × JSON) → Nat
  | [] => 0
  | (_, v) :: ms => 1 + size v + sizeMembers ms
end

/-- What may follow a number in a text for its digits to be read back alone. -/
def NumberEnd (rest : Str) : Prop :=
  ∀ c, rest.head? = some c → isDigit c = false ∧ c ≠ '.' ∧ c ≠ 'e' ∧ c ≠ 'E'

/-- The first character of a value: no white space and none of the closing or
separating characters. -/
def ValueStart (c : Char) : Prop :=
  isJsonWs c = false ∧ c ≠ ']' ∧ c ≠ rbrace ∧ c ≠ ','

instance (c : Char) : Decidable (ValueStart c) := by
  unfold ValueStart
  infer_instance

/-! ### The records as JavaScript objects -/

/-- An array of strings. -/
def strsToJSON (xs : List Str) : JSON := JSON.arr (xs.map JSON.str)

/-- The crew object: own properties in creation order. -/
def crewToJSON (c : Crew) : JSON :=
  JSON.obj [("id".toList, JSON.num c.id), ("name".toList, JSON.str c.name),
    ("location".toList, JSON.str c.location), ("members".toList, strsToJSON c.members),
    ("created".toList, JSON.str c.created), ("memberCount".toList, JSON.num c.memberCount)]

/-- The event object: own properties in creation order. -/
def eventToJSON (e : Event) : JSON :=
  JSON.obj [("id".toList, JSON.num e.id), ("title".toList, JSON.str e.title),
    ("date".toList, JSON.str e.date), ("crew".toList, JSON.str e.crew),
    ("location".toList, JSON.str e.location),
    ("participants".toList, strsToJSON e.participants),
    ("participantCount".toList, JSON.num e.participantCount),
    ("status".toList, JSON.str e.status)]

/-- The array `state.crews`. -/
def crewsToJSON (cs : List Crew) : JSON := JSON.arr (cs.map crewToJSON)

/-- The array `state.events`. -/
def eventsToJSON (es : List Event) : JSON := JSON.arr (es.map eventToJSON)

/-- Read every item of a list, or none of them. -/
def decodeList {α : Type} (f : JSON → Option α) : List JSON → Option (List α)
  | [] => some []
  | v :: vs =>
    match f v, decodeList f vs with
    | some a, some as => some (a :: as)
    | _, _ => none

/-- A parsed value that is a string. -/
def decodeStr : JSON → Option Str
  | .str s => some s
  | _ => none

/-- A parsed value that is an array of strings. -/
def decodeStrs : JSON → Option (List Str)
  | .arr xs => decodeList decodeStr xs
  | _ => none

/-- A parsed value that has the shape of a crew object; any other value is not a
`Crew` of this model. -/
def decodeCrew : JSON → Option Crew
  | .obj [(k1, .num id), (k2, .str name), (k3, .str location), (k4, members),
      (k5, .str created), (k6, .num memberCount)] =>
    if k1 = "id".toList ∧ k2 = "name".toList ∧ k3 = "location".toList ∧
        k4 = "members".toList ∧ k5 = "created".toList ∧ k6 = "memberCount".toList then
      (decodeStrs members).map
        (fun ms => ⟨id, name, location, ms, created, memberCount⟩)
    else none
  | _ => none

/-- A parsed value that has the shape of an event object. -/
def decodeEvent : JSON → Option Event
  | .obj [(k1, .num id), (k2, .str title), (k3, .str date), (k4, .str crew),
      (k5, .str location), (k6, participants), (k7, .num participantCount),
      (k8, .str status)] =>
    if k1 = "id".toList ∧ k2 = "title".toList ∧ k3 = "date".toList ∧ k4 = "crew".toList ∧
        k5 = "location".toList ∧ k6 = "participants".toList ∧
        k7 = "participantCount".toList ∧ k8 = "status".toList then
      (decodeStrs participants).map
        (fun ps => ⟨id, title, date, crew, location, ps, participantCount, status⟩)
    else none
  | _ => none

/-- A parsed value that is an array of crew objects. -/
def decodeCrews : JSON → Option (List Crew)
  | .arr xs => decodeList decodeCrew xs
  | _ => none

/-- A parsed value that is an array of event objects. -/
def decodeEvents : JSON → Option (List Event)
  | .arr xs => decodeList decodeEvent xs
  | _ => none

/-! ## Local storage -/

/-- The key of the crew list in `localStorage`. -/
def crewsKey : Str := "shoresquad_crews".toList

/-- The key of the event list in `localStorage`. -/
def eventsKey : Str := "shoresquad_events".toList

/-- The function `saveLocalData()`. -/
def saveLocalData (s : State) : State :=
  let st1 := setItem s.storage crewsKey (stringify (crewsToJSON s.crews))
  let st2 := setItem st1 eventsKey (stringify (eventsToJSON s.events))
  { s with storage := st2 }

/-- One line of `loadLocalData`, `if (saved) list = JSON.parse(saved)`: a missing
or empty text keeps the current list. The answer `none` stands for a text that
`jsonParse` does not read or whose value is not a list of records. -/
def loadList {α : Type} (decode : JSON → Option (List α)) (saved : Option Str)
    (current : List α) : Option (List α) :=
  match saved with
  | none => some current
  | some text => if text = [] then some current else (jsonParse text).bind decode

/-- The function `loadLocalData()`. -/
def loadLocalData (s : State) : Option State :=
  let savedCrews := getItem s.storage crewsKey
  let savedEvents := getItem s.storage eventsKey
  match loadList decodeCrews savedCrews s.crews with
  | none => none
  | some crews =>
    match loadList decodeEvents savedEvents s.events with
    | none => none
    | some events => some { s with crews := crews, events := events }

/-! ## Crew management -/

/-- The handler `createCrew(e)`; `nameValue` and `locationValue` are the values of
the inputs `crewName` and `crewLocation`. -/
def createCrew (now : Nat) (today : Str) (nameValue locationValue : Str) (s : State) : State :=
  let crewName := trim nameValue
  let crewLocation := trim locationValue
  if crewName = [] ∨ crewLocation = [] then
    showNotification "Please fill all fields".toList Severity.warning s
  else
    let newCrew : Crew :=
      { id := now, name := crewName, location := crewLocation,
        members := [s.currentUser], created := today, memberCount := 1 }
    let s1 := { s with crews := s.crews ++ [newCrew] }
    let s2 := saveLocalData s1
    showNotification ("Crew \"".toList ++ crewName ++ "\" created! 🎉".toList)
      Severity.success s2

/-! ## Event management -/

/-- The handler `createEvent(e)`; `titleValue`, `eventDate` and `crewId` are the
values of the fields `eventTitle`, `eventDate` and `eventCrew`. The comparison
`c.id == crewId` of a number with a string is the argument `looseEq`. When no
crew matches, `crew` is `undefined` and reading `crew.name` raises a
`TypeError` before anything is changed. -/
def createEvent (looseEq : Nat → Str → Bool) (now : Nat) (titleValue eventDate crewId : Str)
    (s : State) : Outcome :=
  let eventTitle := trim titleValue
  if eventTitle = [] ∨ eventDate = [] ∨ crewId = [] then
    ⟨showNotification "Please fill all fields".toList Severity.warning s, none⟩
  else
    match s.crews.find? (fun c => looseEq c.id crewId) with
    | none => ⟨s, some JsError.typeError⟩
    | some crew =>
      let newEvent : Event :=
        { id := now, title := eventTitle, date := eventDate, crew := crew.name,
          location := crew.location, participants := [s.currentUser],
          participantCount := 1, status := "upcoming".toList }
      let s1 := { s with events := s.events ++ [newEvent] }
      let s2 := saveLocalData s1
      ⟨showNotification ("Event \"".toList ++ eventTitle ++ "\" scheduled! 📅".toList)
        Severity.success s2, none⟩

/-- The comparison `id == text` for a text of decimal digits, with white space
around it allowed: the text is converted to a number first. Texts in another
number syntax are answered with `false` here. -/
def looseEqDecimal (id : Nat) (text : Str) : Bool :=
  let t := trim text
  t.all isDigit && digitsValue t == id

/-- Apply `f` to the first item that satisfies `p`: a change made through the
reference that `Array.prototype.find` returned. -/
def updateFirst (p : Event → Bool) (f : Event → Event) : List Event → List Event
  | [] => []
  | e :: es => if p e then f e :: es else e :: updateFirst p f es

/-- The two assignments of `joinEvent`: push the name, increment the count. -/
def addParticipant (name : Str) (e : Event) : Event :=
  { e with participants := e.participants ++ [name], participantCount := e.participantCount + 1 }

/-- The function `joinEvent(eventId)`. -/
def joinEvent (eventId : Nat) (s : State) : State :=
  match s.events.find? (fun e => e.id == eventId) with
  | none => s
  | some event =>
    if s.currentUser ∈ event.participants then s
    else
      let s1 := { s with
        events := updateFirst (fun e => e.id == eventId) (addParticipant s.currentUser) s.events }
      let s2 := saveLocalData s1
      showNotification ("You joined \"".toList ++ event.title ++ "\"! 🌊".toList)
        Severity.success s2

/-! ## Runs of the store -/

/-- The `state` object at page load, before anything is stored. -/
def initialState : State :=
  { crews := [], events := [], currentUser := "Beach Warrior".toList, storage := [],
    notifications := [] }

/-- A store with one crew and no event. -/
def sampleStore : State :=
  { initialState with
    crews := [⟨1700000000000, "Tide Turners".toList, "East Coast Park".toList,
      ["Beach Warrior".toList], "6/1/2024".toList, 1⟩] }

/-- The store of a new session that finds what `sampleStore` saved. -/
def freshStore : State :=
  { initialState with storage := (saveLocalData sampleStore).storage }

/-- One thing that happens to the store: a handler call with the values it reads,
or an assignment to `state.currentUser.name`. -/
inductive Action where
  | createCrew (now : Nat) (today nameValue locationValue : Str)
  | createEvent (now : Nat) (titleValue eventDate crewId : Str)
  | joinEvent (eventId : Nat)
  | setUserName (name : Str)
deriving DecidableEq

/-- The store after one action; an exception ends the handler and leaves the store
as it was at that point. -/
def step (looseEq : Nat → Str → Bool) (s : State) : Action → State
  | .createCrew now today nameValue locationValue => createCrew now today nameValue locationValue s
  | .createEvent now titleValue eventDate crewId =>
    (createEvent looseEq now titleValue eventDate crewId s).state
  | .joinEvent eventId => joinEvent eventId s
  | .setUserName name => { s with currentUser := name }

/-- The store after a sequence of actions. -/
def run (looseEq : Nat → Str → Bool) (s : State) (actions : List Action) : State :=
  actions.foldl (step looseEq) s

/-- The scenario of a first session: a crew is created, an event is scheduled
for it, a second user joins the event and presses the button once more. -/
def sampleActions : List Action :=
  [Action.createCrew 1700000000000 "6/1/2024".toList "Tide Turners".toList
      "East Coast Park".toList,
    Action.createEvent 1700000000005 "Sunset Cleanup".toList "2024-06-01".toList
      "1700000000000".toList,
    Action.setUserName "Wave Rider".toList,
    Action.joinEvent 1700000000005,
    Action.joinEvent 1700000000005]

/-- The counters agree with the lists and no participant is listed twice. -/
def CountsAgree (s : State) : Prop :=
  (∀ c ∈ s.crews, c.memberCount = c.members.length) ∧
  (∀ e ∈ s.events, e.participantCount = e.participants.length ∧ e.participants.Nodup)

/-- A JavaScript value a weather payload can hold in a field; `undefined` is an
absent field. Numbers are integers here. -/
inductive JsVal where
  | undefined
  | null
  | num (n : Int)
  | str (s : Str)
deriving DecidableEq

/-- The conversion to boolean that `a || b` applies to `a`. -/
def JsVal.truthy : JsVal → Bool
  | .undefined => false
  | .null => false
  | .num n => n != 0
  | .str s => s != []

/-- The operator `a || b`. -/
def JsVal.or (a b : JsVal) : JsVal := if a.truthy then a else b

/-- The text of a value inside a template literal. -/
def JsVal.toText : JsVal → Str
  | .undefined => "undefined".toList
  | .null => "null".toList
  | .num n => if n < 0 then '-' :: numberToString n.natAbs else numberToString n.natAbs
  | .str s => s

/-- The object `weather.main` of a provider response. -/
structure MainPart where
  temp : JsVal
  humidity : JsVal
deriving DecidableEq

/-- An item of the array `weather.weather` of a provider response. -/
structure ConditionPart where
  main : JsVal
deriving DecidableEq

/-- The object `weather.wind` of a provider response. -/
structure WindPart where
  speed : JsVal
deriving DecidableEq

/-- The argument of `renderWeatherCard`: the fields it reads. A part that is
`none` is absent. -/
structure Weather where
  temp : JsVal
  condition : JsVal
  humidity : JsVal
  windSpeed : JsVal
  main : Option MainPart
  weather : Option (List ConditionPart)
  wind : Option WindPart
deriving DecidableEq

/-- The four values that `renderWeatherCard` writes into the card. -/
structure WeatherCard where
  temperature : Str
  condition : Str
  humidity : Str
  windSpeed : Str
deriving DecidableEq

/-- The expression `weather.main?.temp`. -/
def Weather.mainTemp (w : Weather) : JsVal :=
  match w.main with
  | none => JsVal.undefined
  | some m => m.temp

/-- The expression `weather.main?.humidity`. -/
def Weather.mainHumidity (w : Weather) : JsVal :=
  match w.main with
  | none => JsVal.undefined
  | some m => m.humidity

/-- The expression `weather.weather?.[0]?.main`. -/
def Weather.firstCondition (w : Weather) : JsVal :=
  match w.weather with
  | none => JsVal.undefined
  | some [] => JsVal.undefined
  | some (c :: _) => c.main

/-- The expression `weather.wind?.speed`. -/
def Weather.windPartSpeed (w : Weather) : JsVal :=
  match w.wind with
  | none => JsVal.undefined
  | some x => x.speed

/-- The function `renderWeatherCard(weather)`: the texts of the four
`weather-item-value` paragraphs. -/
def renderWeatherCard (w : Weather) : WeatherCard :=
  { temperature := ((w.temp.or w.mainTemp).or (JsVal.num 28)).toText ++ "°C".toList
    condition := ((w.condition.or w.firstCondition).or (JsVal.str "Sunny".toList)).toText
    humidity := ((w.humidity.or w.mainHumidity).or (JsVal.num 65)).toText ++ "%".toList
    windSpeed := ((w.windSpeed.or w.windPartSpeed).or (JsVal.num 12)).toText ++ " km/h".toList }

/-- The payload `demoWeather` of `getWeather`, as far as the card reads it. -/
def demoWeather : Weather :=
  { temp := JsVal.num 28, condition := JsVal.str "Sunny".toList, humidity := JsVal.num 65,
    windSpeed := JsVal.num 12, main := none, weather := none, wind := none }

/-! ## Reading back what `JSON.stringify` wrote

### Numbers -/

theorem digitChar_spec : ∀ d, d < 10 →
    isDigit (digitChar d) = true ∧ (digitChar d).toNat - 48 = d ∧ (d ≠ 0 → digitChar d ≠ '0') := by
  decide

theorem natDigits_isDigit (fuel n : Nat) : ∀ c ∈ natDigits fuel n, isDigit c = true := by
  induction fuel generalizing n with
  | zero => simp [natDigits]
  | succ fuel ih =>
    intro c hc
    unfold natDigits at hc
    split at hc
    · rename_i h
      simp only [List.mem_singleton] at hc
      subst hc
      exact (digitChar_spec n h).1
    · rcases List.mem_append.1 hc with h1 | h1
      · exact ih _ c h1
      · simp only [List.mem_singleton] at h1
        subst h1
        exact (digitChar_spec _ (Nat.mod_lt _ (by decide))).1

theorem digitsValue_append (ds : Str) (c : Char) :
    digitsValue (ds ++ [c]) = 10 * digitsValue ds + (c.toNat - 48) := by
  simp [digitsValue, List.foldl_append]

theorem digitsValue_natDigits (fuel n : Nat) (h : n < fuel) :
    digitsValue (natDigits fuel n) = n := by
  induction fuel generalizing n with
  | zero => omega
  | succ fuel ih =>
    unfold natDigits
    split
    · rename_i h10
      simp [digitsValue, (digitChar_spec n h10).2.1]
    · rename_i h10
      rw [digitsValue_append, ih (n / 10) (by omega),
        (digitChar_spec _ (Nat.mod_lt n (by decide))).2.1]
      omega

theorem natDigits_head (fuel n : Nat) (h : n < fuel) (hn : 0 < n) :
    ∃ c r, natDigits fuel n = c :: r ∧ c ≠ '0' := by
  induction fuel generalizing n with
  | zero => omega
  | succ fuel ih =>
    unfold natDigits
    split
    · rename_i h10
      exact ⟨_, [], rfl, (digitChar_spec n h10).2.2 (by omega)⟩
    · obtain ⟨c, r, hr, hc⟩ := ih (n / 10) (by omega) (by omega)
      exact ⟨c, r ++ [digitChar (n % 10)], by simp [hr], hc⟩

theorem numberToString_zero : numberToString 0 = ['0'] := by decide

theorem parseNumber_numberToString (n : Nat) (rest : Str) (hrest : NumberEnd rest) :
    parseNumber (numberToString n ++ rest) = some (JSON.num n, rest) := by
  have hd : ∀ c ∈ numberToString n, isDigit c = true := natDigits_isDigit _ _
  have htake : (numberToString n ++ rest).takeWhile isDigit = numberToString n := by
    rw [List.takeWhile_append_of_pos hd]
    cases rest with
    | nil => simp
    | cons c r =>
      have := (hrest c rfl).1
      simp [List.takeWhile_cons, this]
  have hdrop : (numberToString n ++ rest).dropWhile isDigit = rest := by
    rw [List.dropWhile_append_of_pos hd]
    cases rest with
    | nil => simp
    | cons c r =>
      have := (hrest c rfl).1
      simp [List.dropWhile_cons, this]
  have hval : digitsValue (numberToString n) = n := digitsValue_natDigits _ _ (Nat.lt_succ_self n)
  have hlead : ¬ ((numberToString n).head? = some '0' ∧ 1 < (numberToString n).length) := by
    rcases Nat.eq_zero_or_pos n with h0 | hpos
    · subst h0
      simp [numberToString_zero]
    · obtain ⟨c, r, hr, hc⟩ := natDigits_head (n + 1) n (Nat.lt_succ_self n) hpos
      unfold numberToString
      rw [hr]
      simp [hc]
  have hne : numberToString n ≠ [] := by
    rcases Nat.eq_zero_or_pos n with h0 | hpos
    · subst h0
      simp [numberToString_zero]
    · obtain ⟨c, r, hr, _⟩ := natDigits_head (n + 1) n (Nat.lt_succ_self n) hpos
      unfold numberToString
      rw [hr]
      simp
  have hfrac : ¬ (rest.head? = some '.' ∨ rest.head? = some 'e' ∨ rest.head? = some 'E') := by
    rintro (h | h | h)
    · exact (hrest _ h).2.1 rfl
    · exact (hrest _ h).2.2.1 rfl
    · exact (hrest _ h).2.2.2 rfl
  unfold parseNumber
  simp only [htake, hdrop, hval]
  rw [if_neg hne, if_neg hlead, if_neg hfrac]

/-! ### Strings -/

theorem hex4_hexDigit : ∀ n, n < 32 →
    hex4 '0' '0' (hexDigit (n / 16)) (hexDigit (n % 16)) = some (Char.ofNat n) := by
  decide

theorem parseStringBody_cons (c : Char) (cs : Str) :
    parseStringBody (c :: cs) =
      if c = '"' then some ([], cs)
      else if c = '\\' then
        match cs with
        | [] => none
        | e :: cs1 =>
          if e = 'u' then
            match cs1 with
            | h1 :: h2 :: h3 :: h4 :: cs2 =>
              match hex4 h1 h2 h3 h4 with
              | some ch => (parseStringBody cs2).map (consResult ch)
              | none => none
            | _ => none
          else
            match unescape e with
            | some ch => (parseStringBody cs1).map (consResult ch)
            | none => none
      else if c.toNat < 32 then none
      else (parseStringBody cs).map (consResult c) := by
  rw [parseStringBody.eq_def]
  rfl

theorem parseStringBody_escapeChar (c : Char) (tail : Str) :
    parseStringBody (escapeChar c ++ tail) = (parseStringBody tail).map (consResult c) := by
  unfold escapeChar
  split
  · rename_i h
    subst h
    simp [parseStringBody_cons, unescape]
  split
  · rename_i h
    subst h
    simp [parseStringBody_cons, unescape]
  split
  · rename_i h
    have : c = Char.ofNat 8 := by rw [← h, Char.ofNat_toNat]
    subst this
    simp [parseStringBody_cons, unescape]
  split
  · rename_i h
    have : c = Char.ofNat 12 := by rw [← h, Char.ofNat_toNat]
    subst this
    simp [parseStringBody_cons, unescape]
  split
  · rename_i h
    have : c = Char.ofNat 10 := by rw [← h, Char.ofNat_toNat]
    subst this
    simp [parseStringBody_cons, unescape]
  split
  · rename_i h
    have : c = Char.ofNat 13 := by rw [← h, Char.ofNat_toNat]
    subst this
    simp [parseStringBody_cons, unescape]
  split
  · rename_i h
    have : c = Char.ofNat 9 := by rw [← h, Char.ofNat_toNat]
    subst this
    simp [parseStringBody_cons, unescape]
  split
  · rename_i h
    have h4 := hex4_hexDigit c.toNat h
    rw [Char.ofNat_toNat] at h4
    simp [parseStringBody_cons, h4]
  · rename_i h1 h2 _ _ _ _ _ h3
    simp [parseStringBody_cons, h1, h2, h3]

theorem parseStringBody_flatMap (s rest : Str) :
    parseStringBody (s.flatMap escapeChar ++ '"' :: rest) = some (s, rest) := by
  induction s with
  | nil => simp [parseStringBody_cons]
  | cons c s ih =>
    rw [List.flatMap_cons, List.append_assoc, parseStringBody_escapeChar, ih]
    rfl

/-! ### Values -/

theorem parseValue_succ (fuel : Nat) (cs : Str) :
    parseValue (fuel + 1) cs =
      match skipWs cs with
      | [] => none
      | c :: r =>
        if c = '"' then (parseStringBody r).map (fun p => (JSON.str p.1, p.2))
        else if c = '[' then
          match skipWs r with
          | [] => none
          | d :: r1 =>
            if d = ']' then some (JSON.arr [], r1)
            else (parseElements fuel r).map (fun p => (JSON.arr p.1, p.2))
        else if c = lbrace then
          match skipWs r with
          | [] => none
          | d :: r1 =>
            if d = rbrace then some (JSON.obj [], r1)
            else (parseMembers fuel r).map (fun p => (JSON.obj p.1, p.2))
        else if c = 't' then parseLiteral "rue".toList (JSON.bool true) r
        else if c = 'f' then parseLiteral "alse".toList (JSON.bool false) r
        else if c = 'n' then parseLiteral "ull".toList JSON.null r
        else if isDigit c then parseNumber (c :: r)
        else none := by
  rw [parseValue]

theorem parseElements_succ (fuel : Nat) (cs : Str) :
    parseElements (fuel + 1) cs =
      match parseValue fuel cs with
      | none => none
      | some (v, r) =>
        match skipWs r with
        | [] => none
        | d :: r1 =>
          if d = ',' then (parseElements fuel r1).map (consResult v)
          else if d = ']' then some ([v], r1)
          else none := by
  rw [parseElements]

theorem parseMembers_succ (fuel : Nat) (cs : Str) :
    parseMembers (fuel + 1) cs =
      match skipWs cs with
      | [] => none
      | q :: r0 =>
        if q = '"' then
          match parseStringBody r0 with
          | none => none
          | some (k, r1) =>
            match skipWs r1 with
            | [] => none
            | col :: r2 =>
              if col = ':' then
                match parseValue fuel r2 with
                | none => none
                | some (v, r3) =>
                  match skipWs r3 with
                  | [] => none
                  | d :: r4 =>
                    if d = ',' then (parseMembers fuel r4).map (consResult (k, v))
                    else if d = rbrace then some ([(k, v)], r4)
                    else none
              else none
        else none := by
  rw [parseMembers]

theorem skipWs_cons_of_not_ws (c : Char) (t : Str) (h : isJsonWs c = false) :
    skipWs (c :: t) = c :: t := by
  simp [skipWs, List.dropWhile_cons, h]

theorem valueStart_of_isDigit (c : Char) (h : isDigit c = true) : ValueStart c := by
  simp only [isDigit, Bool.and_eq_true, decide_eq_true_eq] at h
  refine ⟨?_, ?_, ?_, ?_⟩
  · simp only [isJsonWs, Bool.or_eq_false_iff, beq_eq_false_iff_ne, ne_eq]
    omega
  · rintro rfl
    revert h
    decide
  · rintro rfl
    revert h
    decide
  · rintro rfl
    revert h
    decide

theorem numberToString_cons (n : Nat) :
    ∃ c t, numberToString n = c :: t ∧ isDigit c = true := by
  have hd : ∀ c ∈ numberToString n, isDigit c = true := natDigits_isDigit _ _
  cases h : numberToString n with
  | nil =>
    unfold numberToString natDigits at h
    split at h <;> simp at h
  | cons c t =>
    exact ⟨c, t, rfl, hd c (by simp [h])⟩

theorem stringify_cons (v : JSON) : ∃ c t, stringify v = c :: t ∧ ValueStart c := by
  cases v with
  | null => exact ⟨'n', ['u', 'l', 'l'], by simp [stringify], by decide⟩
  | bool b =>
    cases b
    · exact ⟨'f', ['a', 'l', 's', 'e'], by simp [stringify], by decide⟩
    · exact ⟨'t', ['r', 'u', 'e'], by simp [stringify], by decide⟩
  | num n =>
    obtain ⟨c, t, h, hc⟩ := numberToString_cons n
    exact ⟨c, t, by simp [stringify, h], valueStart_of_isDigit c hc⟩
  | str s => exact ⟨'"', s.flatMap escapeChar ++ ['"'], by simp [stringify, quote], by decide⟩
  | arr xs => exact ⟨'[', stringifyElements xs ++ [']'], by simp [stringify], by decide⟩
  | obj ms => exact ⟨lbrace, stringifyMembers ms ++ [rbrace], by simp [stringify], by decide⟩

theorem stringifyElements_cons (v : JSON) (vs : List JSON) :
    ∃ c t, stringifyElements (v :: vs) = c :: t ∧ ValueStart c := by
  obtain ⟨c, t, h, hc⟩ := stringify_cons v
  cases vs with
  | nil => exact ⟨c, t, by simp [stringifyElements, h], hc⟩
  | cons w ws =>
    exact ⟨c, t ++ ',' :: stringifyElements (w :: ws), by simp [stringifyElements, h], hc⟩

theorem stringifyMembers_cons (k : Str) (v : JSON) (ms : List (Str × JSON)) :
    ∃ t, stringifyMembers ((k, v) :: ms) = '"' :: t := by
  cases ms with
  | nil => exact ⟨_, by simp [stringifyMembers, quote]; rfl⟩
  | cons m ms => exact ⟨_, by simp [stringifyMembers, quote]; rfl⟩

theorem numberEnd_nil : NumberEnd [] := by
  intro c h
  simp at h

theorem numberEnd_cons (c : Char) (r : Str) (h : c = ',' ∨ c = ']' ∨ c = rbrace) :
    NumberEnd (c :: r) := by
  intro d hd
  simp only [List.head?_cons, Option.some.injEq] at hd
  subst hd
  rcases h with h | h | h <;> subst h <;> decide

theorem fuel_succ (n fuel : Nat) (h : 1 + n ≤ fuel) : ∃ f, fuel = f + 1 ∧ n ≤ f :=
  ⟨fuel - 1, by omega, by omega⟩

mutual
theorem parseValue_stringify : ∀ (v : JSON) (fuel : Nat) (rest : Str),
    size v ≤ fuel → NumberEnd rest → parseValue fuel (stringify v ++ rest) = some (v, rest)
  | .null, fuel, rest, hf, _ => by
    obtain ⟨f, rfl, _⟩ := fuel_succ 0 fuel (by simpa [size] using hf)
    rw [parseValue_succ]
    simp [stringify, skipWs, isJsonWs, parseLiteral, lbrace]
  | .bool true, fuel, rest, hf, _ => by
    obtain ⟨f, rfl, _⟩ := fuel_succ 0 fuel (by simpa [size] using hf)
    rw [parseValue_succ]
    simp [stringify, skipWs, isJsonWs, parseLiteral, lbrace]
  | .bool false, fuel, rest, hf, _ => by
    obtain ⟨f, rfl, _⟩ := fuel_succ 0 fuel (by simpa [size] using hf)
    rw [parseValue_succ]
    simp [stringify, skipWs, isJsonWs, parseLiteral, lbrace]
  | .num n, fuel, rest, hf, hrest => by
    obtain ⟨f, rfl, _⟩ := fuel_succ 0 fuel (by simpa [size] using hf)
    obtain ⟨c, t, h, hc⟩ := numberToString_cons n
    have hv := valueStart_of_isDigit c hc
    have hnum := parseNumber_numberToString n rest hrest
    rw [h] at hnum
    have h1 : c ≠ '"' := by rintro rfl; revert hc; decide
    have h2 : c ≠ '[' := by rintro rfl; revert hc; decide
    have h3 : c ≠ lbrace := by rintro rfl; revert hc; decide
    have h4 : c ≠ 't' := by rintro rfl; revert hc; decide
    have h5 : c ≠ 'f' := by rintro rfl; revert hc; decide
    have h6 : c ≠ 'n' := by rintro rfl; revert hc; decide
    rw [parseValue_succ]
    simp only [stringify, h, List.cons_append]
    rw [skipWs_cons_of_not_ws c _ hv.1]
    simp only [h1, h2, h3, h4, h5, h6, hc, if_false, if_true]
    exact hnum
  | .str s, fuel, rest, hf, _ => by
    obtain ⟨f, rfl, _⟩ := fuel_succ 0 fuel (by simpa [size] using hf)
    rw [parseValue_succ]
    simp only [stringify, quote, List.cons_append, List.append_assoc, List.singleton_append]
    rw [skipWs_cons_of_not_ws '"' _ (by decide)]
    simp [parseStringBody_flatMap]
  | .arr xs, fuel, rest, hf, _ => by
    obtain ⟨f, rfl, hf1⟩ := fuel_succ (sizeList xs) fuel (by simpa [size] using hf)
    have ih := parseElements_stringify xs f rest
    rw [parseValue_succ]
    simp only [stringify, List.cons_append, List.append_assoc, List.singleton_append]
    rw [skipWs_cons_of_not_ws '[' _ (by decide)]
    cases xs with
    | nil =>
      simp [stringifyElements, skipWs_cons_of_not_ws ']' _ (by decide)]
    | cons x xs =>
      obtain ⟨c, t, hc, hs⟩ := stringifyElements_cons x xs
      have ih1 := ih (by simp) hf1
      rw [hc] at ih1 ⊢
      simp only [List.cons_append] at ih1 ⊢
      rw [skipWs_cons_of_not_ws c _ hs.1]
      simp [hs.2.1, ih1]
  | .obj ms, fuel, rest, hf, _ => by
    obtain ⟨f, rfl, hf1⟩ := fuel_succ (sizeMembers ms) fuel (by simpa [size] using hf)
    have ih := parseMembers_stringify ms f rest
    rw [parseValue_succ]
    simp only [stringify, List.cons_append, List.append_assoc, List.singleton_append]
    rw [skipWs_cons_of_not_ws lbrace _ (by decide)]
    cases ms with
    | nil =>
      have hb : lbrace ≠ '"' ∧ lbrace ≠ '[' := by decide
      simp [stringifyMembers, skipWs_cons_of_not_ws rbrace _ (by decide), hb.1, hb.2]
    | cons m ms =>
      obtain ⟨k, v⟩ := m
      obtain ⟨t, hc⟩ := stringifyMembers_cons k v ms
      have ih1 := ih (by simp) hf1
      rw [hc] at ih1 ⊢
      simp only [List.cons_append] at ih1 ⊢
      rw [skipWs_cons_of_not_ws '"' _ (by decide)]
      have hb : lbrace ≠ '"' ∧ lbrace ≠ '[' ∧ '"' ≠ rbrace := by decide
      simp [hb.1, hb.2.1, hb.2.2, ih1]
theorem parseElements_stringify : ∀ (xs : List JSON) (fuel : Nat) (rest : Str),
    xs ≠ [] → sizeList xs ≤ fuel →
    parseElements fuel (stringifyElements xs ++ ']' :: rest) = some (xs, rest)
  | [], _, _, h, _ => absurd rfl h
  | [v], fuel, rest, _, hf => by
    obtain ⟨f, rfl, hf1⟩ := fuel_succ (size v) fuel (by simpa [sizeList] using hf)
    have ihv := parseValue_stringify v f (']' :: rest) hf1 (numberEnd_cons _ _ (by simp))
    rw [parseElements_succ]
    simp only [stringifyElements]
    rw [ihv]
    simp [skipWs_cons_of_not_ws ']' _ (by decide)]
  | v :: w :: ws, fuel, rest, _, hf => by
    obtain ⟨f, rfl, hf1⟩ := fuel_succ (size v + sizeList (w :: ws)) fuel
      (by simp only [sizeList] at hf ⊢; omega)
    have ihv := parseValue_stringify v f (',' :: (stringifyElements (w :: ws) ++ ']' :: rest))
      (by omega) (numberEnd_cons _ _ (by simp))
    have ihs := parseElements_stringify (w :: ws) f rest (by simp) (by omega)
    rw [parseElements_succ]
    simp only [stringifyElements, List.append_assoc, List.cons_append]
    rw [ihv]
    simp [skipWs_cons_of_not_ws ',' _ (by decide), ihs, consResult]
theorem parseMembers_stringify : ∀ (ms : List (Str × JSON)) (fuel : Nat) (rest : Str),
    ms ≠ [] → sizeMembers ms ≤ fuel →
    parseMembers fuel (stringifyMembers ms ++ rbrace :: rest) = some (ms, rest)
  | [], _, _, h, _ => absurd rfl h
  | [(k, v)], fuel, rest, _, hf => by
    obtain ⟨f, rfl, hf1⟩ := fuel_succ (size v) fuel (by simpa [sizeMembers] using hf)
    have ihv := parseValue_stringify v f (rbrace :: rest) hf1 (numberEnd_cons _ _ (by simp))
    rw [parseMembers_succ]
    simp only [stringifyMembers, quote, List.cons_append, List.append_assoc,
      List.singleton_append, List.nil_append]
    rw [skipWs_cons_of_not_ws '"' _ (by decide)]
    simp only [if_true, parseStringBody_flatMap]
    rw [skipWs_cons_of_not_ws ':' _ (by decide)]
    simp only [if_true, ihv]
    rw [skipWs_cons_of_not_ws rbrace _ (by decide)]
    have hb : rbrace ≠ ',' := by decide
    simp [hb]
  | (k, v) :: m :: ms, fuel, rest, _, hf => by
    obtain ⟨f, rfl, hf1⟩ := fuel_succ (size v + sizeMembers (m :: ms)) fuel
      (by simp only [sizeMembers] at hf ⊢; omega)
    have ihv := parseValue_stringify v f (',' :: (stringifyMembers (m :: ms) ++ rbrace :: rest))
      (by omega) (numberEnd_cons _ _ (by simp))
    have ihs := parseMembers_stringify (m :: ms) f rest (by simp) (by omega)
    rw [parseMembers_succ]
    simp only [stringifyMembers, quote, List.cons_append, List.append_assoc,
      List.singleton_append, List.nil_append]
    rw [skipWs_cons_of_not_ws '"' _ (by decide)]
    simp only [if_true, parseStringBody_flatMap]
    rw [skipWs_cons_of_not_ws ':' _ (by decide)]
    simp only [if_true, ihv]
    rw [skipWs_cons_of_not_ws ',' _ (by decide)]
    simp [ihs, consResult]
end

mutual
theorem size_le_length : ∀ v : JSON, size v ≤ (stringify v).length
  | .null => by simp [size, stringify]
  | .bool b => by cases b <;> simp [size, stringify]
  | .num n => by
    obtain ⟨c, t, h, _⟩ := numberToString_cons n
    simp [size, stringify, h]
  | .str s => by simp [size, stringify, quote]
  | .arr xs => by
    have := sizeList_le_length xs
    simp only [size, stringify, List.length_cons, List.length_append, List.length_singleton,
      List.length_nil]
    omega
  | .obj ms => by
    have := sizeMembers_le_length ms
    simp only [size, stringify, List.length_cons, List.length_append, List.length_singleton,
      List.length_nil]
    omega
theorem sizeList_le_length : ∀ xs : List JSON, sizeList xs ≤ (stringifyElements xs).length + 1
  | [] => by simp [sizeList]
  | [v] => by
    have := size_le_length v
    simp only [sizeList, stringifyElements]
    omega
  | v :: w :: ws => by
    have := size_le_length v
    have := sizeList_le_length (w :: ws)
    simp only [sizeList, stringifyElements, List.length_cons, List.length_append] at *
    omega
theorem sizeMembers_le_length :
    ∀ ms : List (Str × JSON), sizeMembers ms ≤ (stringifyMembers ms).length + 1
  | [] => by simp [sizeMembers]
  | [(k, v)] => by
    have := size_le_length v
    simp only [sizeMembers, stringifyMembers, List.length_cons, List.length_append]
    omega
  | (k, v) :: m :: ms => by
    have := size_le_length v
    have := sizeMembers_le_length (m :: ms)
    simp only [sizeMembers, stringifyMembers, List.length_cons, List.length_append] at *
    omega
end

/-- Reading back the text `JSON.stringify` wrote gives the value that was written. -/
theorem jsonParse_stringify (v : JSON) : jsonParse (stringify v) = some v := by
  have h := parseValue_stringify v ((stringify v).length + 1) []
    (Nat.le_succ_of_le (size_le_length v)) numberEnd_nil
  rw [List.append_nil] at h
  simp [jsonParse, h, skipWs]

/-! ### Records -/

theorem decodeList_map {α : Type} (f : JSON → Option α) (g : α → JSON)
    (h : ∀ a, f (g a) = some a) (xs : List α) : decodeList f (xs.map g) = some xs := by
  induction xs with
  | nil => rfl
  | cons a as ih => simp [decodeList, h, ih]

theorem decodeStrs_strsToJSON (xs : List Str) : decodeStrs (strsToJSON xs) = some xs := by
  simp only [decodeStrs, strsToJSON]
  exact decodeList_map decodeStr JSON.str (fun _ => rfl) xs

theorem decodeCrew_crewToJSON (c : Crew) : decodeCrew (crewToJSON c) = some c := by
  simp [decodeCrew, crewToJSON, decodeStrs_strsToJSON]

theorem decodeEvent_eventToJSON (e : Event) : decodeEvent (eventToJSON e) = some e := by
  simp [decodeEvent, eventToJSON, decodeStrs_strsToJSON]

theorem decodeCrews_crewsToJSON (cs : List Crew) : decodeCrews (crewsToJSON cs) = some cs := by
  simp only [decodeCrews, crewsToJSON]
  exact decodeList_map decodeCrew crewToJSON decodeCrew_crewToJSON cs

theorem decodeEvents_eventsToJSON (es : List Event) :
    decodeEvents (eventsToJSON es) = some es := by
  simp only [decodeEvents, eventsToJSON]
  exact decodeList_map decodeEvent eventToJSON decodeEvent_eventToJSON es

theorem stringify_ne_nil (v : JSON) : stringify v ≠ [] := by
  obtain ⟨c, t, h, _⟩ := stringify_cons v
  simp [h]

theorem loadList_stringify {α : Type} (decode : JSON → Option (List α)) (v : JSON)
    (xs current : List α) (h : decode v = some xs) :
    loadList decode (some (stringify v)) current = some xs := by
  simp [loadList, stringify_ne_nil, jsonParse_stringify, h]

/-! ## The store -/

theorem getItem_setItem_same (st : Storage) (key value : Str) :
    getItem (setItem st key value) key = some value := by
  simp [getItem, setItem]

theorem getItem_setItem_other (st : Storage) (key value other : Str) (h : key ≠ other) :
    getItem (setItem st key value) other = getItem st other := by
  have h1 : (key == other) = false := by simpa using h
  simp only [getItem, setItem, List.find?_cons, h1]
  congr 1
  induction st with
  | nil => rfl
  | cons p ps ih =>
    by_cases hp : p.1 = key
    · have hne : ¬ p.1 = other := fun e => h (hp ▸ e)
      simp [List.filter_cons, List.find?_cons, hp, hne, h, ih]
    · by_cases hq : p.1 = other
      · have hko : ¬ other = key := fun e => h e.symm
        simp [List.filter_cons, List.find?_cons, hq, hko]
      · simp [List.filter_cons, List.find?_cons, hp, hq, ih]

theorem getItem_saveLocalData_crews (s : State) :
    getItem (saveLocalData s).storage crewsKey = some (stringify (crewsToJSON s.crews)) := by
  simp only [saveLocalData]
  rw [getItem_setItem_other _ _ _ _ (by decide), getItem_setItem_same]

theorem getItem_saveLocalData_events (s : State) :
    getItem (saveLocalData s).storage eventsKey = some (stringify (eventsToJSON s.events)) := by
  simp only [saveLocalData]
  rw [getItem_setItem_same]

@[simp] theorem saveLocalData_crews (s : State) : (saveLocalData s).crews = s.crews := rfl

@[simp] theorem saveLocalData_events (s : State) : (saveLocalData s).events = s.events := rfl

@[simp] theorem saveLocalData_currentUser (s : State) :
    (saveLocalData s).currentUser = s.currentUser := rfl

@[simp] theorem showNotification_crews (m : Str) (t : Severity) (s : State) :
    (showNotification m t s).crews = s.crews := rfl

@[simp] theorem showNotification_events (m : Str) (t : Severity) (s : State) :
    (showNotification m t s).events = s.events := rfl

@[simp] theorem showNotification_currentUser (m : Str) (t : Severity) (s : State) :
    (showNotification m t s).currentUser = s.currentUser := rfl

/-- C1. When the name and the location are both non-empty after trimming,
`createCrew` appends exactly one crew at the end of `state.crews`: its name and
location are the trimmed inputs, its members are the one-element list of the
current user name and its member count is 1. The crews already there keep their
values and order, and `state.events` is unchanged. -/
theorem createCrew_appends (now : Nat) (today nameValue locationValue : Str) (s : State)
    (hn : trim nameValue ≠ []) (hl : trim locationValue ≠ []) :
    (createCrew now today nameValue locationValue s).crews =
        s.crews ++ [{ id := now, name := trim nameValue, location := trim locationValue,
                      members := [s.currentUser], created := today, memberCount := 1 }] ∧
      (createCrew now today nameValue locationValue s).events = s.events := by
  simp [createCrew, hn, hl]

theorem createCrew_appends_witness :
    (trim "  Tide Turners ".toList ≠ [] ∧ trim "East Coast Park".toList ≠ []) ∧
    ((createCrew 1700000000000 "6/1/2024".toList "  Tide Turners ".toList
        "East Coast Park".toList initialState).crews =
        initialState.crews ++
          [{ id := 1700000000000, name := trim "  Tide Turners ".toList,
             location := trim "East Coast Park".toList,
             members := [initialState.currentUser], created := "6/1/2024".toList,
             memberCount := 1 }] ∧
      (createCrew 1700000000000 "6/1/2024".toList "  Tide Turners ".toList
        "East Coast Park".toList initialState).events = initialState.events) :=
  ⟨by decide, createCrew_appends 1700000000000 "6/1/2024".toList "  Tide Turners ".toList
    "East Coast Park".toList initialState (by decide) (by decide)⟩

/-- C2. When the name or the location is empty after trimming (white space only
included), `createCrew` raises one notice of severity `warning` and leaves
`state.crews`, `state.events` and the persistent storage exactly as they were. -/
theorem createCrew_rejects_blank (now : Nat) (today nameValue locationValue : Str) (s : State)
    (h : trim nameValue = [] ∨ trim locationValue = []) :
    (createCrew now today nameValue locationValue s).notifications =
        s.notifications ++ [⟨"Please fill all fields".toList, Severity.warning⟩] ∧
      (createCrew now today nameValue locationValue s).crews = s.crews ∧
      (createCrew now today nameValue locationValue s).events = s.events ∧
      (createCrew now today nameValue locationValue s).storage = s.storage := by
  simp [createCrew, h, showNotification]

theorem createCrew_rejects_blank_witness :
    (trim " \t ".toList = [] ∨ trim "East Coast Park".toList = []) ∧
    ((createCrew 1700000000000 "6/1/2024".toList " \t ".toList "East Coast Park".toList
        initialState).notifications =
        initialState.notifications ++ [⟨"Please fill all fields".toList, Severity.warning⟩] ∧
      (createCrew 1700000000000 "6/1/2024".toList " \t ".toList "East Coast Park".toList
        initialState).crews = initialState.crews ∧
      (createCrew 1700000000000 "6/1/2024".toList " \t ".toList "East Coast Park".toList
        initialState).events = initialState.events ∧
      (createCrew 1700000000000 "6/1/2024".toList " \t ".toList "East Coast Park".toList
        initialState).storage = initialState.storage) :=
  ⟨by decide, createCrew_rejects_blank 1700000000000 "6/1/2024".toList " \t ".toList
    "East Coast Park".toList initialState (by decide)⟩

/-- C7. Saving a store and then loading into a store that has the same storage (a
fresh one with empty lists in particular) gives back the saved crews and events:
same order, every field the same. The saved lists may be empty: the text of an
empty list is `[]`, which is not an empty text, so it is parsed and assigned
like any other. -/
theorem save_then_load (s fresh : State) (hs : fresh.storage = (saveLocalData s).storage) :
    loadLocalData fresh = some { fresh with crews := s.crews, events := s.events } := by
  simp only [loadLocalData, hs, getItem_saveLocalData_crews, getItem_saveLocalData_events]
  rw [loadList_stringify decodeCrews _ s.crews fresh.crews (decodeCrews_crewsToJSON _),
    loadList_stringify decodeEvents _ s.events fresh.events (decodeEvents_eventsToJSON _)]

theorem save_then_load_witness :
    freshStore.storage = (saveLocalData sampleStore).storage ∧
    loadLocalData freshStore =
      some { freshStore with crews := sampleStore.crews, events := sampleStore.events } :=
  ⟨rfl, save_then_load sampleStore freshStore rfl⟩

/-! ### Joining an event -/

theorem find?_split (p : Event → Bool) (f : Event → Event) (l : List Event) (e : Event)
    (h : l.find? p = some e) :
    ∃ pre post, l = pre ++ e :: post ∧ (∀ x ∈ pre, p x = false) ∧ p e = true ∧
      updateFirst p f l = pre ++ f e :: post := by
  induction l with
  | nil => simp at h
  | cons a as ih =>
    by_cases ha : p a = true
    · simp only [List.find?_cons, ha, Option.some.injEq] at h
      subst h
      exact ⟨[], as, rfl, by simp, ha, by simp [updateFirst, ha]⟩
    · have ha' : p a = false := by simpa using ha
      simp only [List.find?_cons, ha'] at h
      obtain ⟨pre, post, h1, h2, h3, h4⟩ := ih h
      refine ⟨a :: pre, post, by simp [h1], ?_, h3, by simp [updateFirst, ha', h4]⟩
      intro x hx
      rcases List.mem_cons.1 hx with rfl | hx
      · exact ha'
      · exact h2 x hx

theorem updateFirst_map_id (p : Event → Bool) (f : Event → Event)
    (hf : ∀ x, (f x).id = x.id) (l : List Event) :
    (updateFirst p f l).map Event.id = l.map Event.id := by
  induction l with
  | nil => rfl
  | cons a as ih =>
    by_cases ha : p a = true
    · simp [updateFirst, ha, hf]
    · have ha' : p a = false := by simpa using ha
      simp [updateFirst, ha', ih]

theorem updateFirst_length (p : Event → Bool) (f : Event → Event) (l : List Event) :
    (updateFirst p f l).length = l.length := by
  induction l with
  | nil => rfl
  | cons a as ih =>
    by_cases ha : p a = true
    · simp [updateFirst, ha]
    · have ha' : p a = false := by simpa using ha
      simp [updateFirst, ha', ih]

theorem joinEvent_of_none (eventId : Nat) (s : State)
    (h : s.events.find? (fun e => e.id == eventId) = none) : joinEvent eventId s = s := by
  simp [joinEvent, h]

theorem joinEvent_of_member (eventId : Nat) (s : State) (e : Event)
    (h : s.events.find? (fun e => e.id == eventId) = some e)
    (hm : s.currentUser ∈ e.participants) : joinEvent eventId s = s := by
  simp [joinEvent, h, hm]

theorem joinEvent_of_join (eventId : Nat) (s : State) (e : Event)
    (h : s.events.find? (fun e => e.id == eventId) = some e)
    (hm : s.currentUser ∉ e.participants) :
    joinEvent eventId s =
      showNotification ("You joined \"".toList ++ e.title ++ "\"! 🌊".toList) Severity.success
        (saveLocalData { s with
          events := updateFirst (fun e => e.id == eventId) (addParticipant s.currentUser)
            s.events }) := by
  simp [joinEvent, h, hm]

theorem joinEvent_events (eventId : Nat) (s : State) :
    (joinEvent eventId s).events = s.events ∨
      (joinEvent eventId s).events =
        updateFirst (fun e => e.id == eventId) (addParticipant s.currentUser) s.events := by
  cases h : s.events.find? (fun e => e.id == eventId) with
  | none => exact Or.inl (by rw [joinEvent_of_none _ _ h])
  | some e =>
    by_cases hm : s.currentUser ∈ e.participants
    · exact Or.inl (by rw [joinEvent_of_member _ _ e h hm])
    · exact Or.inr (by rw [joinEvent_of_join _ _ e h hm]; rfl)

theorem joinEvent_crews (eventId : Nat) (s : State) : (joinEvent eventId s).crews = s.crews := by
  cases h : s.events.find? (fun e => e.id == eventId) with
  | none => rw [joinEvent_of_none _ _ h]
  | some e =>
    by_cases hm : s.currentUser ∈ e.participants
    · rw [joinEvent_of_member _ _ e h hm]
    · rw [joinEvent_of_join _ _ e h hm]; rfl

theorem joinEvent_currentUser (eventId : Nat) (s : State) :
    (joinEvent eventId s).currentUser = s.currentUser := by
  cases h : s.events.find? (fun e => e.id == eventId) with
  | none => rw [joinEvent_of_none _ _ h]
  | some e =>
    by_cases hm : s.currentUser ∈ e.participants
    · rw [joinEvent_of_member _ _ e h hm]
    · rw [joinEvent_of_join _ _ e h hm]; rfl

theorem joinEvent_event_ids (eventId : Nat) (s : State) :
    (joinEvent eventId s).events.map Event.id = s.events.map Event.id := by
  rcases joinEvent_events eventId s with h | h <;> rw [h]
  exact updateFirst_map_id _ (addParticipant s.currentUser) (fun _ => rfl) _

theorem joinEvent_events_length (eventId : Nat) (s : State) :
    (joinEvent eventId s).events.length = s.events.length := by
  rcases joinEvent_events eventId s with h | h <;> rw [h]
  exact updateFirst_length _ _ _

theorem createEvent_of_unknown (looseEq : Nat → Str → Bool) (now : Nat)
    (titleValue eventDate crewId : Str) (s : State)
    (ht : trim titleValue ≠ []) (hd : eventDate ≠ []) (hc : crewId ≠ [])
    (hf : s.crews.find? (fun c => looseEq c.id crewId) = none) :
    createEvent looseEq now titleValue eventDate crewId s = ⟨s, some JsError.typeError⟩ := by
  simp [createEvent, ht, hd, hc, hf]

theorem createEvent_of_blank (looseEq : Nat → Str → Bool) (now : Nat)
    (titleValue eventDate crewId : Str) (s : State)
    (h : trim titleValue = [] ∨ eventDate = [] ∨ crewId = []) :
    createEvent looseEq now titleValue eventDate crewId s =
      ⟨showNotification "Please fill all fields".toList Severity.warning s, none⟩ := by
  simp [createEvent, h]

/-- C3, at an input where the code departs from the claim: one crew is stored,
all three fields are filled in and the crew id `42` is the id of no crew. The
handler ends with a `TypeError`; it raises no notice; the store is unchanged. -/
theorem createEvent_unknown_crew_throws :
    createEvent looseEqDecimal 1700000000005 "Sunset Cleanup".toList "2024-06-01".toList
        "42".toList sampleStore =
      ⟨sampleStore, some JsError.typeError⟩ := by
  decide

/-- C10. The frame of `joinEvent(eventId)`: the crews and the current user are
unchanged, the events keep their number and their order of ids. When no event
has the id, or the first event with the id already lists the current user, the
whole store is unchanged. Otherwise the only change to the events is in the
first event with the id: the current user name is appended at the end of its
participants and its participant count grows by 1; every other event and every
other field of that event is as before. -/
theorem joinEvent_frame (eventId : Nat) (s : State) :
    (joinEvent eventId s).crews = s.crews ∧
    (joinEvent eventId s).currentUser = s.currentUser ∧
    (joinEvent eventId s).events.length = s.events.length ∧
    (joinEvent eventId s).events.map Event.id = s.events.map Event.id ∧
    (s.events.find? (fun e => e.id == eventId) = none → joinEvent eventId s = s) ∧
    (∀ e, s.events.find? (fun e => e.id == eventId) = some e →
      s.currentUser ∈ e.participants → joinEvent eventId s = s) ∧
    (∀ e, s.events.find? (fun e => e.id == eventId) = some e →
      s.currentUser ∉ e.participants →
      ∃ pre post, s.events = pre ++ e :: post ∧ (∀ x ∈ pre, x.id ≠ eventId) ∧
        e.id = eventId ∧
        (joinEvent eventId s).events =
          pre ++ { e with participants := e.participants ++ [s.currentUser],
                          participantCount := e.participantCount + 1 } :: post) := by
  refine ⟨joinEvent_crews eventId s, joinEvent_currentUser eventId s,
    joinEvent_events_length eventId s, joinEvent_event_ids eventId s,
    joinEvent_of_none eventId s, joinEvent_of_member eventId s, ?_⟩
  · intro e hf hm
    obtain ⟨pre, post, h1, h2, h3, h4⟩ :=
      find?_split (fun e => e.id == eventId) (addParticipant s.currentUser) s.events e hf
    refine ⟨pre, post, h1, ?_, by simpa using h3, ?_⟩
    · intro x hx
      simpa using h2 x hx
    · rw [joinEvent_of_join eventId s e hf hm]
      exact h4

/-- The card of the demo payload of `getWeather`. -/
theorem renderWeatherCard_demoWeather :
    renderWeatherCard demoWeather =
      { temperature := "28°C".toList, condition := "Sunny".toList, humidity := "65%".toList,
        windSpeed := "12 km/h".toList } := by
  decide

/-- A number that is not 0 is shown as it is, also when the provider sends it
in the `main` object instead of the field `temp`. -/
theorem renderWeatherCard_main_temp :
    (renderWeatherCard
        { demoWeather with temp := JsVal.undefined,
                           main := some ⟨JsVal.num (-3), JsVal.undefined⟩ }).temperature =
      "-3°C".toList := by
  decide

/-- C9, at an input where the code departs from the claim: the payload carries
the temperature 0, the condition `Clear`, the humidity 0 and the wind speed 0.
The card shows the condition of the payload and the demo defaults 28, 65 and 12
for the three numbers. -/
theorem renderWeatherCard_zero_shows_defaults :
    renderWeatherCard
        { temp := JsVal.num 0, condition := JsVal.str "Clear".toList, humidity := JsVal.num 0,
          windSpeed := JsVal.num 0, main := none, weather := none, wind := none } =
      { temperature := "28°C".toList, condition := "Clear".toList, humidity := "65%".toList,
        windSpeed := "12 km/h".toList } := by
  decide

/-! ### Counters -/

theorem countsAgree_showNotification (m : Str) (t : Severity) (s : State) (h : CountsAgree s) :
    CountsAgree (showNotification m t s) := h

theorem countsAgree_saveLocalData (s : State) (h : CountsAgree s) :
    CountsAgree (saveLocalData s) := h

theorem countsAgree_createCrew (now : Nat) (today nameValue locationValue : Str) (s : State)
    (h : CountsAgree s) : CountsAgree (createCrew now today nameValue locationValue s) := by
  unfold createCrew
  simp only
  split
  · exact h
  · refine ⟨?_, h.2⟩
    intro c hc
    simp only [showNotification_crews, saveLocalData_crews, List.mem_append,
      List.mem_singleton] at hc
    rcases hc with hc | rfl
    · exact h.1 c hc
    · rfl

theorem countsAgree_createEvent (looseEq : Nat → Str → Bool) (now : Nat)
    (titleValue eventDate crewId : Str) (s : State) (h : CountsAgree s) :
    CountsAgree (createEvent looseEq now titleValue eventDate crewId s).state := by
  unfold createEvent
  simp only
  split
  · exact h
  · split
    · exact h
    · refine ⟨h.1, ?_⟩
      intro e he
      simp only [showNotification_events, saveLocalData_events, List.mem_append,
        List.mem_singleton] at he
      rcases he with he | rfl
      · exact h.2 e he
      · exact ⟨rfl, by simp⟩

theorem countsAgree_joinEvent (eventId : Nat) (s : State) (h : CountsAgree s) :
    CountsAgree (joinEvent eventId s) := by
  cases hf : s.events.find? (fun e => e.id == eventId) with
  | none => rw [joinEvent_of_none _ _ hf]; exact h
  | some e =>
    by_cases hm : s.currentUser ∈ e.participants
    · rw [joinEvent_of_member _ _ e hf hm]; exact h
    · rw [joinEvent_of_join _ _ e hf hm]
      obtain ⟨pre, post, h1, _, _, h4⟩ :=
        find?_split (fun e => e.id == eventId) (addParticipant s.currentUser) s.events e hf
      refine ⟨h.1, ?_⟩
      intro x hx
      simp only [showNotification_events, saveLocalData_events] at hx
      rw [h4] at hx
      have he : e ∈ s.events := by rw [h1]; simp
      rcases List.mem_append.1 hx with hx | hx
      · exact h.2 x (by rw [h1]; exact List.mem_append_left _ hx)
      · rcases List.mem_cons.1 hx with rfl | hx
        · obtain ⟨hcount, hnodup⟩ := h.2 e he
          refine ⟨by simp [addParticipant, hcount], ?_⟩
          simp only [addParticipant]
          rw [List.nodup_append]
          exact ⟨hnodup, by simp, by
            intro a ha hb
            simp only [List.mem_singleton] at hb
            subst hb
            exact hm ha⟩
        · exact h.2 x (by rw [h1]; exact List.mem_append_right _ (List.mem_cons_of_mem _ hx))

theorem countsAgree_step (looseEq : Nat → Str → Bool) (s : State) (a : Action)
    (h : CountsAgree s) : CountsAgree (step looseEq s a) := by
  cases a with
  | createCrew now today nameValue locationValue => exact countsAgree_createCrew _ _ _ _ s h
  | createEvent now titleValue eventDate crewId => exact countsAgree_createEvent _ _ _ _ _ s h
  | joinEvent eventId => exact countsAgree_joinEvent _ s h
  | setUserName name => exact h

theorem countsAgree_run (looseEq : Nat → Str → Bool) (s : State) (actions : List Action)
    (h : CountsAgree s) : CountsAgree (run looseEq s actions) := by
  induction actions generalizing s with
  | nil => exact h
  | cons a as ih => exact ih (step looseEq s a) (countsAgree_step looseEq s a h)

/-- C6. In every store reached from a store without crews and events by any
sequence of `createCrew`, `createEvent` and `joinEvent` calls and changes of the
current user name, every crew has a member count equal to the length of its
members, every event has a participant count equal to the length of its
participants, and no event lists the same participant twice. -/
theorem counts_agree_when_reachable (looseEq : Nat → Str → Bool) (s0 : State)
    (actions : List Action) (hc : s0.crews = []) (he : s0.events = []) :
    (∀ c ∈ (run looseEq s0 actions).crews, c.memberCount = c.members.length) ∧
    (∀ e ∈ (run looseEq s0 actions).events,
      e.participantCount = e.participants.length ∧ e.participants.Nodup) :=
  countsAgree_run looseEq s0 actions ⟨by simp [hc], by simp [he]⟩

theorem counts_agree_when_reachable_witness :
    (initialState.crews = [] ∧ initialState.events = []) ∧
    ((∀ c ∈ (run looseEqDecimal initialState sampleActions).crews,
        c.memberCount = c.members.length) ∧
    (∀ e ∈ (run looseEqDecimal initialState sampleActions).events,
      e.participantCount = e.participants.length ∧ e.participants.Nodup)) :=
  ⟨⟨rfl, rfl⟩, counts_agree_when_reachable looseEqDecimal initialState sampleActions rfl rfl⟩

/-- The scenario of the specification: after the second user has joined, the event
has two participants, and joining again changes nothing. -/
theorem sampleActions_events :
    (run looseEqDecimal initialState sampleActions).events =
      [{ id := 1700000000005, title := "Sunset Cleanup".toList, date := "2024-06-01".toList,
         crew := "Tide Turners".toList, location := "East Coast Park".toList,
         participants := ["Beach Warrior".toList, "Wave Rider".toList],
         participantCount := 2, status := "upcoming".toList }] := by
  decide

/-! ### Record ids -/

end ShoreSquad
